import Mathlib

/-!
Shallow embedding of `ren3_processor.py` / `run_processor.py`
(casino-webscraper batch-orchestration client), together with theorems
settling the specification's claims about batching, retry, polling,
file discovery, the batch pipeline and the CSV merger.
-/

namespace Ren3

/-! ## Batcher (`Ren3AgentProcessor.create_batches`) -/

/-- The slicing loop of `create_batches` for a positive step `B`:
`for i in range(0, len(json_files), B): batches.append(json_files[i:i+B])`.
Each iteration emits the slice `l[i : i+B]` (i.e. `take B` of what is left)
and advances by `B`. -/
def chunkPos (B : Nat) : List α → List (List α)
  | [] => []
  | x :: xs => List.take B (x :: xs) :: chunkPos B (List.drop (B - 1) xs)
termination_by l => l.length
decreasing_by simp [List.length_drop]; omega

/-- `Ren3AgentProcessor.create_batches`.  The Python loop header is
`range(0, len(json_files), self.config.batch_size)`: `range` raises
`ValueError` when its step is zero, yields nothing when the step is
negative (the start `0` never exceeds the stop `len(json_files) ≥ 0`),
and for a positive step produces the slice starts `0, B, 2B, …`. -/
def create_batches (batch_size : Int) (json_files : List α) :
    Except String (List (List α)) :=
  if batch_size = 0 then .error "ValueError: range() arg 3 must not be zero"
  else if batch_size < 0 then .ok []
  else .ok (chunkPos batch_size.toNat json_files)

theorem chunkPos_cons (B : Nat) (hB : 0 < B) (x : α) (xs : List α) :
    chunkPos B (x :: xs) =
      List.take B (x :: xs) :: chunkPos B (List.drop B (x :: xs)) := by
  rw [chunkPos]
  obtain ⟨n, rfl⟩ := Nat.exists_eq_succ_of_ne_zero hB.ne'
  simp [List.drop_succ_cons]

theorem chunkPos_flatten (B : Nat) (hB : 0 < B) (l : List α) :
    (chunkPos B l).flatten = l := by
  cases l with
  | nil => simp [chunkPos]
  | cons x xs =>
    rw [chunkPos_cons B hB, List.flatten_cons,
      chunkPos_flatten B hB (List.drop B (x :: xs)), List.take_append_drop]
termination_by l.length
decreasing_by simp; omega

theorem chunkPos_mem_length (B : Nat) (hB : 0 < B) (l : List α) (b : List α)
    (hb : b ∈ chunkPos B l) : b.length ≤ B := by
  have H : ∀ n, ∀ l b : List α, l.length ≤ n → b ∈ chunkPos B l → b.length ≤ B := by
    intro n
    induction n with
    | zero =>
      intro l b hl hb
      rw [List.length_eq_zero.mp (Nat.le_zero.mp hl)] at hb
      simp [chunkPos] at hb
    | succ n ih =>
      intro l b hl hb
      cases l with
      | nil => simp [chunkPos] at hb
      | cons x xs =>
        rw [chunkPos_cons B hB] at hb
        rcases List.mem_cons.mp hb with h | h
        · subst h; simp [List.length_take]
        · exact ih _ b (by simp at hl ⊢; omega) h
  exact H l.length l b le_rfl hb

theorem ceil_step (B N : Nat) (hB : 0 < B) (hN : 0 < N) :
    (N - B + B - 1) / B + 1 = (N + B - 1) / B := by
  rcases Nat.le_total B N with h | h
  · have h1 : N - B + B - 1 = N - 1 := by omega
    have h2 : N + B - 1 = N - 1 + B := by omega
    rw [h1, h2, Nat.add_div_right _ hB]
  · have h1 : N - B + B - 1 = B - 1 := by omega
    have h2 : (B - 1) / B = 0 := Nat.div_eq_of_lt (by omega)
    have h3 : (N + B - 1) / B = 1 :=
      Nat.div_eq_of_lt_le (by omega) (by omega)
    rw [h1, h2, h3]

theorem chunkPos_length (B : Nat) (hB : 0 < B) (l : List α) :
    (chunkPos B l).length = (l.length + B - 1) / B := by
  cases l with
  | nil =>
    have h : (List.length ([] : List α) + B - 1) / B = 0 :=
      Nat.div_eq_of_lt (by simp; omega)
    rw [h]
    simp [chunkPos]
  | cons x xs =>
    rw [chunkPos_cons B hB]
    simp only [List.length_cons]
    rw [chunkPos_length B hB (List.drop B (x :: xs))]
    simp only [List.length_drop, List.length_cons]
    exact ceil_step B (xs.length + 1) hB (by omega)
termination_by l.length
decreasing_by simp; omega

/-- C1: for every file list and every batch size `B > 0`, `create_batches`
partitions the list into `⌈N/B⌉` contiguous batches, each of length `≤ B`,
whose concatenation in order is the original list. -/
theorem create_batches_correct (B : Nat) (files : List String) (hB : 0 < B) :
    ∃ bs : List (List String),
      create_batches (B : Int) files = .ok bs ∧
      bs.length = (files.length + B - 1) / B ∧
      (∀ b ∈ bs, b.length ≤ B) ∧
      bs.flatten = files := by
  refine ⟨chunkPos B files, ?_, chunkPos_length B hB files,
    fun b hb => chunkPos_mem_length B hB files b hb, chunkPos_flatten B hB files⟩
  have h0 : (B : Int) ≠ 0 := by exact_mod_cast hB.ne'
  have h1 : ¬ (B : Int) < 0 := by omega
  simp [create_batches, h0, h1]

/-- Witness for C1 at `B = 2`, `files = ["a", "b", "c"]`. -/
theorem create_batches_correct_witness :
    ∃ bs : List (List String),
      create_batches (2 : Int) ["a", "b", "c"] = .ok bs ∧
      bs.length = (3 + 2 - 1) / 2 ∧
      (∀ b ∈ bs, b.length ≤ 2) ∧
      bs.flatten = ["a", "b", "c"] :=
  create_batches_correct 2 ["a", "b", "c"] (by decide)

/-! ## Configuration (`Ren3Config.__init__`) -/

/-- The environment as `Ren3Config.__init__` reads it: each identity
variable is either absent (`none`) or a string; the numeric tunables are
the already-parsed integer values of `BATCH_SIZE`, `POLL_INTERVAL` and
`MAX_RETRIES` when set. -/
structure Ren3Env where
  REN3_API_URL : Option String
  REN3_USER_ID : Option String
  REN3_WORKSPACE_ID : Option String
  REN3_AGENT_UUID : Option String
  REN3_AGENT_FOLDER : Option String
  BATCH_SIZE : Option Int
  POLL_INTERVAL : Option Int
  MAX_RETRIES : Option Int

/-- The configuration object built by `Ren3Config.__init__`. -/
structure Ren3Config where
  api_url : String
  user_id : String
  workspace_id : String
  agent_uuid : String
  agent_folder : String
  batch_size : Int
  poll_interval : Int
  max_retries : Int

/-- Python falsiness of `os.getenv`'s result: `None` and the empty string
are falsy, so `not getattr(self, k)` holds exactly for them. -/
def falsy : Option String → Bool
  | none => true
  | some s => s.isEmpty

/-- `Ren3Config.__init__`: read every field (with the defaults of the
source), then raise `ValueError` naming each of the four required identity
fields that is falsy; `batch_size`, `poll_interval` and `max_retries` are
never validated. -/
def ren3ConfigInit (env : Ren3Env) : Except String Ren3Config :=
  let required : List (String × Option String) :=
    [("user_id", env.REN3_USER_ID), ("workspace_id", env.REN3_WORKSPACE_ID),
     ("agent_uuid", env.REN3_AGENT_UUID), ("agent_folder", env.REN3_AGENT_FOLDER)]
  let missing := (required.filter (fun p => falsy p.2)).map (fun p => p.1)
  if missing.isEmpty then
    .ok { api_url := env.REN3_API_URL.getD "https://backend.ren3.ai"
          user_id := env.REN3_USER_ID.getD ""
          workspace_id := env.REN3_WORKSPACE_ID.getD ""
          agent_uuid := env.REN3_AGENT_UUID.getD ""
          agent_folder := env.REN3_AGENT_FOLDER.getD ""
          batch_size := env.BATCH_SIZE.getD 30
          poll_interval := env.POLL_INTERVAL.getD 15
          max_retries := env.MAX_RETRIES.getD 3 }
  else
    .error ("Missing required config: " ++ String.intercalate ", " missing)

/-- C10: the batch size is never validated.  With all identity fields
present, configuration loading accepts `BATCH_SIZE = 0` (and any negative
value) without an error; `create_batches` then raises on a zero batch size
(zero step of the slicing loop) and returns zero batches for a negative
one even on a non-empty file list. -/
theorem batch_size_unvalidated (env : Ren3Env)
    (hu : falsy env.REN3_USER_ID = false)
    (hw : falsy env.REN3_WORKSPACE_ID = false)
    (ha : falsy env.REN3_AGENT_UUID = false)
    (hf : falsy env.REN3_AGENT_FOLDER = false)
    (hb : env.BATCH_SIZE = some 0) :
    (∃ cfg, ren3ConfigInit env = .ok cfg ∧ cfg.batch_size = 0) ∧
    (∀ files : List String, ∃ msg, create_batches 0 files = .error msg) ∧
    (∀ B : Int, B < 0 → ∀ files : List String, create_batches B files = .ok []) := by
  refine ⟨⟨{ api_url := env.REN3_API_URL.getD "https://backend.ren3.ai"
             user_id := env.REN3_USER_ID.getD ""
             workspace_id := env.REN3_WORKSPACE_ID.getD ""
             agent_uuid := env.REN3_AGENT_UUID.getD ""
             agent_folder := env.REN3_AGENT_FOLDER.getD ""
             batch_size := env.BATCH_SIZE.getD 30
             poll_interval := env.POLL_INTERVAL.getD 15
             max_retries := env.MAX_RETRIES.getD 3 }, ?_, ?_⟩,
    fun files => ⟨"ValueError: range() arg 3 must not be zero",
      by simp [create_batches]⟩,
    fun B hB files => ?_⟩
  · simp [ren3ConfigInit, hu, hw, ha, hf]
  · simp [hb]
  · have h0 : B ≠ 0 := by omega
    simp [create_batches, h0, hB]

/-- Witness for C10: a fully populated environment with `BATCH_SIZE=0`. -/
theorem batch_size_unvalidated_witness :
    (∃ cfg, ren3ConfigInit
        ⟨some "https://backend.ren3.ai", some "u", some "w", some "a", some "f",
         some 0, some 15, some 3⟩ = .ok cfg ∧ cfg.batch_size = 0) ∧
    (∀ files : List String, ∃ msg, create_batches 0 files = .error msg) ∧
    (∀ B : Int, B < 0 → ∀ files : List String, create_batches B files = .ok []) :=
  batch_size_unvalidated
    ⟨some "https://backend.ren3.ai", some "u", some "w", some "a", some "f",
     some 0, some 15, some 3⟩
    (by decide) (by decide) (by decide) (by decide) rfl

/-! ## Remote call gateway (`Ren3AgentProcessor._api_call`) -/

/-- The observable outcome of one call into the gateway: the value the
Python function returns (`some` parsed response on success, `none` when
the retry loop body never runs and the function falls off its end
returning Python `None`), or the propagated `requests` exception; plus
the number of HTTP attempts made and the back-off sleeps (in seconds)
performed, in order. -/
structure CallTrace (ρ : Type) where
  result : Except String (Option ρ)
  attempts : Nat
  sleeps : List Nat

/-- The `for attempt in range(self.config.max_retries)` loop of
`_api_call`, started at loop index `attempt`.  `out i` is the transport
outcome of the `i`-th HTTP request (`.ok` = 2xx response with a parsed
body, `.error` = a raised `requests.exceptions.RequestException`).
A success returns immediately; a failure on attempt `attempt` is followed
by `time.sleep(5 * (attempt + 1))` when `attempt < max_retries - 1`, and
is re-raised otherwise. -/
def apiCallFrom (out : Nat → Except String ρ) (max_retries attempt : Nat) :
    CallTrace ρ :=
  if attempt < max_retries then
    match out attempt with
    | .ok r => ⟨.ok (some r), 1, []⟩
    | .error e =>
      if attempt < max_retries - 1 then
        let t := apiCallFrom out max_retries (attempt + 1)
        ⟨t.result, t.attempts + 1, 5 * (attempt + 1) :: t.sleeps⟩
      else ⟨.error e, 1, []⟩
  else ⟨.ok none, 0, []⟩
termination_by max_retries - attempt
decreasing_by omega

/-- `Ren3AgentProcessor._api_call`: the retry loop from attempt `0`. -/
def apiCall (out : Nat → Except String ρ) (max_retries : Nat) : CallTrace ρ :=
  apiCallFrom out max_retries 0

theorem apiCallFrom_fail_then_succeed (out : Nat → Except String ρ)
    (M K j : Nat) (v : ρ) (hK : K < M) (hj : j ≤ K)
    (hfail : ∀ i, j ≤ i → i < K → ∃ e, out i = .error e)
    (hsucc : out K = .ok v) :
    apiCallFrom out M j =
      ⟨.ok (some v), K - j + 1,
        (List.range' j (K - j)).map (fun i => 5 * (i + 1))⟩ := by
  rcases Nat.lt_or_ge j K with hjK | hjK
  · obtain ⟨e, he⟩ := hfail j le_rfl hjK
    rw [apiCallFrom]
    have h1 : j < M := by omega
    have h2 : j < M - 1 := by omega
    simp only [if_pos h1, he, if_pos h2]
    rw [apiCallFrom_fail_then_succeed out M K (j + 1) v hK (by omega)
      (fun i hi1 hi2 => hfail i (by omega) hi2) hsucc]
    have hKj : K - j = (K - (j + 1)) + 1 := by omega
    rw [hKj, List.range'_succ, List.map_cons]
  · have hjK2 : j = K := by omega
    subst hjK2
    rw [apiCallFrom]
    have h1 : j < M := by omega
    have h2 : j - j = 0 := by omega
    simp [if_pos h1, hsucc, h2]
termination_by K - j
decreasing_by omega

theorem apiCallFrom_all_fail (out : Nat → Except String ρ) (M j : Nat)
    (hj : j < M) (hfail : ∀ i, j ≤ i → i < M → ∃ e, out i = .error e) :
    ∃ e, out (M - 1) = .error e ∧
      apiCallFrom out M j =
        ⟨.error e, M - j,
          (List.range' j (M - 1 - j)).map (fun i => 5 * (i + 1))⟩ := by
  rcases Nat.lt_or_ge j (M - 1) with hjM | hjM
  · obtain ⟨e, he⟩ := hfail j le_rfl (by omega)
    obtain ⟨e', he', hrec⟩ :=
      apiCallFrom_all_fail out M (j + 1) (by omega)
        (fun i hi1 hi2 => hfail i (by omega) hi2)
    refine ⟨e', he', ?_⟩
    rw [apiCallFrom]
    simp only [if_pos hj, he, if_pos hjM]
    rw [hrec]
    have hMj : M - 1 - j = (M - 1 - (j + 1)) + 1 := by omega
    rw [hMj, List.range'_succ, List.map_cons]
    have : M - j = (M - (j + 1)) + 1 := by omega
    simp [this]
  · have hj2 : j = M - 1 := by omega
    obtain ⟨e, he⟩ := hfail j le_rfl (by omega)
    refine ⟨e, by rw [← hj2]; exact he, ?_⟩
    rw [apiCallFrom]
    have h2 : ¬ j < M - 1 := by omega
    have h3 : M - j = 1 := by omega
    have h4 : M - 1 - j = 0 := by omega
    simp [if_pos hj, he, h2, h3, h4]
termination_by M - j
decreasing_by omega

/-- C2: with `max_retries = M`, if the first `K` requests fail with a
transport error (`K < M`) and the `(K+1)`-th succeeds, then exactly
`K + 1` attempts are made and the `k`-th failure (1-indexed) is followed
by a `5 * k`-second sleep; if all requests fail and `M ≥ 1`, the call
raises after exactly `M` attempts and returns no value. -/
theorem api_call_retry (M K : Nat) (out succOut : Nat → Except String ρ)
    (v : ρ) :
    (K < M → (∀ i, i < K → ∃ e, succOut i = .error e) → succOut K = .ok v →
      apiCall succOut M =
        ⟨.ok (some v), K + 1, (List.range K).map (fun k => 5 * (k + 1))⟩) ∧
    (0 < M → (∀ i, i < M → ∃ e, out i = .error e) →
      ∃ e, apiCall out M =
        ⟨.error e, M, (List.range (M - 1)).map (fun k => 5 * (k + 1))⟩) := by
  constructor
  · intro hK hfail hsucc
    rw [apiCall, apiCallFrom_fail_then_succeed succOut M K 0 v hK (by omega)
      (fun i _ hi => hfail i hi) hsucc]
    simp [List.range_eq_range']
  · intro hM hfail
    obtain ⟨e, _, h⟩ :=
      apiCallFrom_all_fail out M 0 hM (fun i _ hi => hfail i hi)
    refine ⟨e, ?_⟩
    rw [apiCall, h]
    simp [List.range_eq_range']

/-- Witness for C2 at `M = 3`: one failure then a success gives two
attempts and one 5-second sleep; three failures give three attempts,
sleeps of 5 and 10 seconds, and a raise. -/
theorem api_call_retry_witness :
    (apiCall (fun i => if i = 0 then .error "boom" else .ok (42 : Nat)) 3 =
      ⟨.ok (some 42), 2, [5]⟩) ∧
    (∃ e, apiCall (fun _ => (.error "down" : Except String Nat)) 3 =
      ⟨.error e, 3, [5, 10]⟩) := by
  have h := api_call_retry (ρ := Nat) 3 1 (fun _ => .error "down")
    (fun i => if i = 0 then .error "boom" else .ok 42) 42
  constructor
  · have h1 := h.1 (by omega)
      (fun i hi => ⟨"boom", by
        have h0 : i = 0 := Nat.lt_one_iff.mp hi
        simp [h0]⟩)
      (by simp)
    simpa using h1
  · obtain ⟨e, he⟩ := h.2 (by omega) (fun i _ => ⟨"down", rfl⟩)
    exact ⟨e, by simpa using he⟩

/-! ## Document download (`Ren3AgentProcessor.download_csv`) -/

/-- `Ren3AgentProcessor.download_csv`: builds the `get_filestream` URL and
sends a single `self.session.post(url, json=data, timeout=120, stream=True)`
request directly — it does not go through `_api_call` — then streams the
body to disk; any exception is logged and immediately re-raised.  Its
trace therefore always records exactly one attempt and no sleep. -/
def download_csv (out : Nat → Except String ρ) : CallTrace ρ :=
  match out 0 with
  | .ok r => ⟨.ok (some r), 1, []⟩
  | .error e => ⟨.error e, 1, []⟩

theorem apiCallFrom_attempts_pos (out : Nat → Except String ρ) (M j : Nat)
    (hj : j < M) : 1 ≤ (apiCallFrom out M j).attempts := by
  rw [apiCallFrom]
  simp only [if_pos hj]
  cases hout : out j with
  | ok r => simp
  | error e =>
    by_cases h : j < M - 1
    · simp [h]
    · simp [h]

/-- C3 counterexample: under the same always-failing transport and the
default `max_retries = 3`, the download call gives up after a single
attempt with no back-off, while the retry gateway makes three attempts
with back-offs of 5 and 10 seconds — so the download call is not routed
through the uniform retry policy. -/
theorem download_not_through_retry :
    download_csv (fun _ => (.error "timeout" : Except String Nat)) =
      ⟨.error "timeout", 1, []⟩ ∧
    apiCall (fun _ => (.error "timeout" : Except String Nat)) 3 =
      ⟨.error "timeout", 3, [5, 10]⟩ ∧
    (1 : Nat) ≠ 3 := by
  obtain ⟨e, he, h⟩ := apiCallFrom_all_fail
    (fun _ => (.error "timeout" : Except String Nat)) 3 0 (by omega)
    (fun i _ _ => ⟨"timeout", rfl⟩)
  have he' : e = "timeout" := by
    simpa [Eq.comm] using he
  subst he'
  refine ⟨rfl, ?_, by omega⟩
  rw [apiCall, h]
  simp [List.range']

/-- C3 amended: every Remote Agent Service request except the document
download goes through `_api_call`'s retry policy; `download_csv` itself
performs exactly one attempt with no back-off sleep and propagates the
first transport failure, where the gateway under the same fault sequence
would attempt at least twice whenever `max_retries ≥ 2`. -/
theorem download_csv_single_attempt (out : Nat → Except String ρ)
    (e : String) (h0 : out 0 = .error e) (M : Nat) (hM : 2 ≤ M) :
    download_csv out = ⟨.error e, 1, []⟩ ∧
    2 ≤ (apiCall out M).attempts := by
  constructor
  · simp [download_csv, h0]
  · rw [apiCall, apiCallFrom]
    have h1 : 0 < M := by omega
    have h2 : 0 < M - 1 := by omega
    simp only [if_pos h1, h0, if_pos h2]
    have h3 := apiCallFrom_attempts_pos out M 1 (by omega)
    simpa using h3

/-- Witness for the amended C3 with an always-failing transport and
`max_retries = 2`. -/
theorem download_csv_single_attempt_witness :
    download_csv (fun _ => (.error "refused" : Except String Nat)) =
      ⟨.error "refused", 1, []⟩ ∧
    2 ≤ (apiCall (fun _ => (.error "refused" : Except String Nat)) 2).attempts :=
  download_csv_single_attempt (fun _ => .error "refused") "refused" rfl 2
    (by omega)

/-! ## Polling (`Ren3AgentProcessor.poll_job_status`) -/

/-- One entry of the `returnObject` log list; `log.get('type')` and
`log.get('text')` may each be absent. -/
structure LogEntry where
  type : Option Int
  text : Option String

/-- Python's substring test `pat in s`, on character lists. -/
def containsSub (pat : List Char) : List Char → Bool
  | [] => pat.isEmpty
  | c :: rest => pat.isPrefixOf (c :: rest) || containsSub pat rest

/-- Python `s.lower()` on the ASCII log texts this client matches. -/
def lowerChars (s : String) : List Char :=
  s.toList.map Char.toLower

/-- The completion test applied to one log entry inside
`poll_job_status`: `log.get('type') == 2` and
`'completed' in log.get('text', '').lower()`. -/
def isCompletionEntry (log : LogEntry) : Bool :=
  log.type == some 2 &&
    containsSub "completed".toList (lowerChars (log.text.getD ""))

/-- The scan of a returned log list for a completion entry (the
`for log in logs` loop returns `True` on the first hit). -/
def signalsCompletion (logs : List LogEntry) : Bool :=
  logs.any isCompletionEntry

/-- C4: a log list signals completion exactly when it contains an entry
whose `type` is `2` and whose `text` contains `"completed"`
case-insensitively; in particular `{type: 2, text: "Job completed
successfully"}` (and its upper-case variant) signals completion while
`[{type: 1, text: "progress 10%"}]` does not. -/
theorem completion_detection (logs : List LogEntry) :
    (signalsCompletion logs = true ↔
      ∃ log ∈ logs, log.type = some 2 ∧
        containsSub "completed".toList (lowerChars (log.text.getD "")) = true) ∧
    signalsCompletion [⟨some 2, some "Job completed successfully"⟩] = true ∧
    signalsCompletion [⟨some 2, some "JOB COMPLETED"⟩] = true ∧
    signalsCompletion [⟨some 1, some "progress 10%"⟩] = false := by
  refine ⟨?_, by decide, by decide, by decide⟩
  simp [signalsCompletion, List.any_eq_true, isCompletionEntry,
    Bool.and_eq_true, beq_iff_eq]

/-- The JSON body of one successful `get_agentjoblogs` response. -/
structure PollResponse where
  success : Bool
  returnObject : List LogEntry

/-- A fetch outcome that makes `poll_job_status` return `True`: the
`_api_call` did not raise, the response's `success` field is truthy and
the log list contains a completion entry. -/
def fetchCompletes : Except String PollResponse → Bool
  | .error _ => false
  | .ok resp => resp.success && signalsCompletion resp.returnObject

/-- The `while True` loop of `poll_job_status` from poll index `i`,
bounded by `fuel` for the embedding.  `fetch i` is the outcome of the
`i`-th `_api_call('/agentdrive/get_agentjoblogs', …)` — which may raise
after its own retries; the `except` arm catches any exception, sleeps
`poll_interval` seconds and polls again.  A successful fetch whose
`success` is truthy and whose logs contain a completion entry returns
`True` at once; any other iteration sleeps `poll_interval` seconds and
continues.  `.ok none` means the loop was still running when the fuel ran
out; an `.error` result would be a propagated exception.  The second
component lists the sleeps performed. -/
def pollFrom (poll_interval : Nat)
    (fetch : Nat → Except String PollResponse) :
    Nat → Nat → Except String (Option Bool) × List Nat
  | _, 0 => (.ok none, [])
  | i, fuel + 1 =>
    match fetch i with
    | .error _ =>
      let r := pollFrom poll_interval fetch (i + 1) fuel
      (r.1, poll_interval :: r.2)
    | .ok resp =>
      if resp.success && signalsCompletion resp.returnObject then
        (.ok (some true), [])
      else
        let r := pollFrom poll_interval fetch (i + 1) fuel
        (r.1, poll_interval :: r.2)

/-- `Ren3AgentProcessor.poll_job_status`: the loop from its first poll. -/
def poll_job_status (poll_interval : Nat)
    (fetch : Nat → Except String PollResponse) (fuel : Nat) :
    Except String (Option Bool) × List Nat :=
  pollFrom poll_interval fetch 0 fuel

theorem pollFrom_no_error (pI : Nat) (fetch : Nat → Except String PollResponse)
    (fuel i : Nat) (e : String) : (pollFrom pI fetch i fuel).1 ≠ .error e := by
  induction fuel generalizing i with
  | zero => simp [pollFrom]
  | succ fuel ih =>
    rw [pollFrom]
    cases hf : fetch i with
    | error e' => simpa using ih (i + 1)
    | ok resp =>
      by_cases hc : resp.success && signalsCompletion resp.returnObject
      · simp [hc]
      · simpa [hc] using ih (i + 1)

theorem pollFrom_no_completion (pI : Nat)
    (fetch : Nat → Except String PollResponse) (fuel i : Nat)
    (h : ∀ j, fetchCompletes (fetch j) = false) :
    pollFrom pI fetch i fuel = (.ok none, List.replicate fuel pI) := by
  induction fuel generalizing i with
  | zero => simp [pollFrom]
  | succ fuel ih =>
    rw [pollFrom]
    cases hf : fetch i with
    | error e' => simp [ih (i + 1), List.replicate_succ]
    | ok resp =>
      have hc : (resp.success && signalsCompletion resp.returnObject) = false := by
        have := h i
        rw [hf] at this
        simpa [fetchCompletes] using this
      simp [hc, ih (i + 1), List.replicate_succ]

/-- C5: `poll_job_status` never propagates an error — every exception
while fetching is caught, followed by a `poll_interval` sleep and a
retry; it returns a value only when some fetched response signals
completion, and if no response ever does, it is still looping after any
number `fuel` of iterations (having slept `poll_interval` seconds each
iteration), i.e. it never returns. -/
theorem poll_job_status_spec (pI fuel : Nat)
    (fetch : Nat → Except String PollResponse) :
    (∀ e, (poll_job_status pI fetch fuel).1 ≠ .error e) ∧
    ((∃ b, (poll_job_status pI fetch fuel).1 = .ok (some b)) →
      ∃ i, fetchCompletes (fetch i) = true) ∧
    ((∀ i, fetchCompletes (fetch i) = false) →
      poll_job_status pI fetch fuel = (.ok none, List.replicate fuel pI)) := by
  refine ⟨fun e => pollFrom_no_error pI fetch fuel 0 e, ?_,
    fun h => pollFrom_no_completion pI fetch fuel 0 h⟩
  intro ⟨b, hb⟩
  by_contra hno
  push_neg at hno
  have hall : ∀ i, fetchCompletes (fetch i) = false := by
    intro i
    have := hno i
    simpa using this
  have := pollFrom_no_completion pI fetch fuel 0 hall
  rw [poll_job_status, this] at hb
  simp at hb

/-- Witness for C5: a transport that always fails; with `poll_interval =
7` and two iterations of fuel the loop is still running and has slept
twice. -/
theorem poll_job_status_spec_witness :
    poll_job_status 7 (fun _ => .error "net down") 2 = (.ok none, [7, 7]) := by
  have h := (poll_job_status_spec 7 2 (fun _ => .error "net down")).2.2
    (fun i => rfl)
  simpa using h

/-! ## File discovery (`Ren3AgentProcessor.get_json_files`) -/

/-- Lexicographic comparison of character sequences: the order by which
Python's `list.sort()` ranks the path strings of the discovered files. -/
def charsLe : List Char → List Char → Bool
  | [], _ => true
  | _ :: _, [] => false
  | a :: as, b :: bs =>
    if a < b then true
    else if b < a then false
    else charsLe as bs

/-- Python `a <= b` on strings, by code points. -/
def strLe (a b : String) : Bool :=
  charsLe a.toList b.toList

theorem charsLe_trans : ∀ as bs cs : List Char,
    charsLe as bs = true → charsLe bs cs = true → charsLe as cs = true := by
  intro as
  induction as with
  | nil => intro bs cs h1 h2; rfl
  | cons a as ih =>
    intro bs cs h1 h2
    cases bs with
    | nil => simp [charsLe] at h1
    | cons b bs =>
      cases cs with
      | nil => simp [charsLe] at h2
      | cons c cs =>
        simp only [charsLe] at h1 h2 ⊢
        rcases lt_trichotomy a b with h | h | h
        · rcases lt_trichotomy b c with h' | h' | h'
          · rw [if_pos (lt_trans h h')]
          · subst h'
            rw [if_pos h]
          · rw [if_neg (asymm h'), if_pos h'] at h2
            exact absurd h2 (by simp)
        · subst h
          rw [if_neg (lt_irrefl a), if_neg (lt_irrefl a)] at h1
          rcases lt_trichotomy a c with h' | h' | h'
          · rw [if_pos h']
          · subst h'
            rw [if_neg (lt_irrefl a), if_neg (lt_irrefl a)] at h2 ⊢
            exact ih bs cs h1 h2
          · rw [if_neg (asymm h'), if_pos h'] at h2
            exact absurd h2 (by simp)
        · rw [if_neg (asymm h), if_pos h] at h1
          exact absurd h1 (by simp)

theorem charsLe_total : ∀ as bs : List Char,
    (charsLe as bs || charsLe bs as) = true := by
  intro as
  induction as with
  | nil => intro bs; simp [charsLe]
  | cons a as ih =>
    intro bs
    cases bs with
    | nil => simp [charsLe]
    | cons b bs =>
      simp only [charsLe]
      rcases lt_trichotomy a b with h | h | h
      · simp [h]
      · subst h
        simp [lt_irrefl, ih bs]
      · simp [h, asymm h]

theorem strLe_trans (a b c : String) (h1 : strLe a b = true)
    (h2 : strLe b c = true) : strLe a c = true :=
  charsLe_trans a.toList b.toList c.toList h1 h2

theorem strLe_total (a b : String) : (strLe a b || strLe b a) = true :=
  charsLe_total a.toList b.toList

/-- Python `s.endswith(post)`, on the underlying character sequences. -/
def pyEndsWith (s post : String) : Bool :=
  post.toList.isSuffixOf s.toList

/-- Python `s.startswith(pre)`, on the underlying character sequences. -/
def pyStartsWith (s pre : String) : Bool :=
  pre.toList.isPrefixOf s.toList

/-- `promo_folder.glob("*.json")` applied to one directory entry name:
the `fnmatch` pattern `*.json` matches exactly the names ending in
`.json` (`*` matches any, possibly empty, prefix; `pathlib`'s glob does
not special-case hidden names). -/
def globJson (name : String) : Bool :=
  pyEndsWith name ".json"

/-- `Ren3AgentProcessor.get_json_files`, over the entry names of the
input directory: keep the `*.json` matches, skip the "special files"
whose name starts with `'_'`, and sort by filename. -/
def get_json_files (entries : List String) : List String :=
  ((entries.filter globJson).filter
    (fun name => !(pyStartsWith name "_"))).mergeSort strLe

/-- The discovery phase of `process_promo_folder`: the
`if not promo_folder.exists()` guard (log an error and return `None`,
surfaced here as the error outcome) followed by `get_json_files`.  The
directory view is `none` when the path does not exist, otherwise the
list of entry names it contains. -/
def discover_json_files : Option (List String) → Except String (List String)
  | none => .error "Folder not found"
  | some entries => .ok (get_json_files entries)

theorem mem_get_json_files (entries : List String) (name : String)
    (h : name ∈ get_json_files entries) :
    name ∈ entries ∧ globJson name = true ∧ pyStartsWith name "_" = false := by
  rw [get_json_files, List.mem_mergeSort] at h
  rcases List.mem_filter.mp h with ⟨h1, h2⟩
  rcases List.mem_filter.mp h1 with ⟨h3, h4⟩
  exact ⟨h3, h4, by simpa using h2⟩

/-- C7: file discovery never returns a name starting with the reserved
marker `'_'`, returns only `*.json` names, and its result is sorted
ascending by name. -/
theorem get_json_files_spec (entries : List String) :
    (∀ name ∈ get_json_files entries,
      pyStartsWith name "_" = false ∧ pyEndsWith name ".json" = true) ∧
    (get_json_files entries).Pairwise (fun a b => strLe a b = true) := by
  constructor
  · intro name h
    obtain ⟨-, hg, hs⟩ := mem_get_json_files entries name h
    exact ⟨hs, hg⟩
  · have h := List.sorted_mergeSort
      (fun a b c h1 h2 => by
        simpa using strLe_trans a b c (by simpa using h1) (by simpa using h2))
      (fun a b => by simpa using strLe_total a b)
      ((entries.filter globJson).filter (fun name => !(pyStartsWith name "_")))
    simpa [get_json_files] using h

/-- Witness for C7 at a concrete directory listing holding a marker
file, a non-JSON file and two unsorted JSON files. -/
theorem get_json_files_spec_witness :
    (∀ name ∈ get_json_files ["b.json", "_meta.json", "a.json", "notes.txt"],
      pyStartsWith name "_" = false ∧ pyEndsWith name ".json" = true) ∧
    (get_json_files ["b.json", "_meta.json", "a.json", "notes.txt"]).Pairwise
      (fun a b => strLe a b = true) :=
  get_json_files_spec ["b.json", "_meta.json", "a.json", "notes.txt"]

/-- C6: discovery on a missing directory fails (the `exists()` guard
aborts with "Folder not found"), while an existing directory that is
empty, or contains no eligible JSON file, yields `.ok []` — an empty
list, not an error. -/
theorem discovery_missing_vs_empty (entries : List String)
    (h : ∀ name ∈ entries,
      globJson name = false ∨ pyStartsWith name "_" = true) :
    discover_json_files none = .error "Folder not found" ∧
    discover_json_files (some []) = .ok [] ∧
    discover_json_files (some entries) = .ok [] := by
  refine ⟨rfl, by simp [discover_json_files, get_json_files], ?_⟩
  have hfil : (entries.filter globJson).filter
      (fun name => !(pyStartsWith name "_")) = [] := by
    rw [List.filter_eq_nil_iff]
    intro a ha
    rcases List.mem_filter.mp ha with ⟨ha1, ha2⟩
    rcases h a ha1 with hg | hs
    · rw [hg] at ha2
      simp at ha2
    · simp [hs]
  simp [discover_json_files, get_json_files, hfil]

/-- Witness for C6: a directory holding only a marker-prefixed JSON and a
non-JSON file is eligible-empty. -/
theorem discovery_missing_vs_empty_witness :
    discover_json_files none = .error "Folder not found" ∧
    discover_json_files (some []) = .ok [] ∧
    discover_json_files (some ["_classified.json", "readme.txt"]) = .ok [] :=
  discovery_missing_vs_empty ["_classified.json", "readme.txt"] (by decide)

/-! ## Merger (`Ren3AgentProcessor.combine_csvs`) -/

/-- `Ren3AgentProcessor.combine_csvs` over the downloaded per-batch CSV
files: `read f` is the outcome of `pd.read_csv(f)` — the parsed rows, or
the raised parse error, which the loop catches, logs and skips.  Each
readable file's rows are appended (`pd.concat`, `ignore_index=True`) to
the accumulated table, and the resulting table is written out
unconditionally afterwards (`to_excel` runs even on an empty table). -/
def combine_csvs (read : φ → Except String (List κ)) (csv_files : List φ) :
    List κ :=
  csv_files.foldl
    (fun acc f =>
      match read f with
      | .ok rows => acc ++ rows
      | .error _ => acc) []

theorem combine_csvs_go (read : φ → Except String (List κ))
    (l : List φ) (acc : List κ) :
    l.foldl
      (fun acc f =>
        match read f with
        | .ok rows => acc ++ rows
        | .error _ => acc) acc =
      acc ++ (l.filterMap (fun f => (read f).toOption)).flatten := by
  induction l generalizing acc with
  | nil => simp
  | cons f l ih =>
    cases hr : read f with
    | error e => simp [List.foldl_cons, hr, ih, Except.toOption]
    | ok rows => simp [List.foldl_cons, hr, ih, Except.toOption]

/-- C9: the merger never propagates a read error — the combined table is
exactly the concatenation, in batch order, of the rows of the readable
files, every unreadable file is skipped, and when every file is
unreadable the written table is empty. -/
theorem combine_csvs_spec (read : φ → Except String (List κ))
    (csv_files : List φ) :
    combine_csvs read csv_files =
      (csv_files.filterMap (fun f => (read f).toOption)).flatten ∧
    ((∀ f ∈ csv_files, ∃ e, read f = .error e) →
      combine_csvs read csv_files = []) := by
  constructor
  · simpa using combine_csvs_go read csv_files []
  · intro h
    have hnil : csv_files.filterMap (fun f => (read f).toOption) = [] := by
      rw [List.filterMap_eq_nil_iff]
      intro f hf
      obtain ⟨e, he⟩ := h f hf
      simp [he, Except.toOption]
    have := combine_csvs_go read csv_files []
    rw [hnil] at this
    simpa using this

/-- Witness for C9: two batch files, the second unreadable; the combined
table keeps exactly the readable rows, and an all-unreadable run yields
the empty table. -/
theorem combine_csvs_spec_witness :
    (combine_csvs
        (fun f => if f = 1 then .ok [10, 11] else .error "parse error")
        ([1, 2] : List Nat) =
      (([1, 2] : List Nat).filterMap
        (fun f => ((if f = 1 then .ok [10, 11] else
          (.error "parse error" : Except String (List Nat))).toOption))).flatten) ∧
    combine_csvs (fun _ => (.error "parse error" : Except String (List Nat)))
      ([1, 2] : List Nat) = [] := by
  constructor
  · exact (combine_csvs_spec
      (fun f => if f = 1 then .ok [10, 11] else .error "parse error") [1, 2]).1
  · exact (combine_csvs_spec
      (fun _ => (.error "parse error" : Except String (List Nat))) [1, 2]).2
      (fun f _ => ⟨"parse error", rfl⟩)

/-! ## Batch pipeline and exit code (`process_promo_folder`, `main`) -/

/-- The `for batch_num, batch in enumerate(batches, 1)` loop of
`process_promo_folder`: `runBatch n b` is the outcome of the whole
pipeline body for batch number `n` — upload, ingestion wait,
verification, job start, polling, job details, output listing, artifact
lookup and download, producing the local per-batch CSV path — or the
batch-scoped failure (the caught exception, or the abandoned batch whose
output lacks `competitive_analysis_results.csv`).  A failed batch is
logged and skipped (`continue`); the loop then moves to the next batch. -/
def runBatches (runBatch : Nat → List String → Except String φ) :
    Nat → List (List String) → List φ
  | _, [] => []
  | n, b :: bs =>
    match runBatch n b with
    | .ok csv => csv :: runBatches runBatch (n + 1) bs
    | .error _ => runBatches runBatch (n + 1) bs

/-- `Ren3AgentProcessor.process_promo_folder`: the `exists()` guard, file
discovery, the empty-list check, batching (whose `ValueError` on a zero
batch size is caught by the surrounding `try`, turning into the `None`
failure return), the per-batch loop, and the final merge, which runs
only when at least one batch produced a CSV.  `none` is the failure
return (`main` exits 1), `some` the produced combined result, carrying
the collected per-batch CSVs in batch order. -/
def process_promo_folder (batch_size : Int)
    (runBatch : Nat → List String → Except String φ)
    (dir : Option (List String)) : Option (List φ) :=
  match dir with
  | none => none
  | some entries =>
    let json_files := get_json_files entries
    if json_files.isEmpty then none
    else
      match create_batches batch_size json_files with
      | .error _ => none
      | .ok batches =>
        let csv_files := runBatches runBatch 1 batches
        if csv_files.isEmpty then none else some csv_files

/-- `main`: exit code 0 exactly when `process_promo_folder` returned a
result; every failure return (and any uncaught exception, re-raised as
the `None` branches above) exits 1. -/
def mainExit (batch_size : Int)
    (runBatch : Nat → List String → Except String φ)
    (dir : Option (List String)) : Nat :=
  match process_promo_folder batch_size runBatch dir with
  | some _ => 0
  | none => 1

theorem runBatches_eq_nil_iff (rb : Nat → List String → Except String φ)
    (n : Nat) (bs : List (List String)) :
    runBatches rb n bs = [] ↔
      ∀ p ∈ List.enumFrom n bs, ∀ v, rb p.1 p.2 ≠ .ok v := by
  induction bs generalizing n with
  | nil => simp [runBatches]
  | cons b bs ih =>
    rw [runBatches]
    cases hr : rb n b with
    | ok v =>
      simp only [List.enumFrom_cons]
      constructor
      · intro h
        exact absurd h (by simp)
      · intro h
        exact absurd hr (by simpa using h (n, b) (by simp) v)
    | error e =>
      rw [ih (n + 1)]
      simp only [List.enumFrom_cons]
      constructor
      · intro h p hp v
        rcases List.mem_cons.mp hp with rfl | hp'
        · simp [hr]
        · exact h p hp' v
      · intro h p hp v
        exact h p (List.mem_cons_of_mem _ hp) v

theorem runBatches_mem (rb : Nat → List String → Except String φ)
    (n : Nat) (bs : List (List String)) (p : Nat × List String)
    (hp : p ∈ List.enumFrom n bs) (v : φ) (hv : rb p.1 p.2 = .ok v) :
    v ∈ runBatches rb n bs := by
  induction bs generalizing n with
  | nil => simp [List.enumFrom] at hp
  | cons b bs ih =>
    rw [List.enumFrom_cons] at hp
    rw [runBatches]
    rcases List.mem_cons.mp hp with rfl | hp'
    · rw [hv]
      exact List.mem_cons_self _ _
    · cases hr : rb n b with
      | ok w => exact List.mem_cons_of_mem _ (ih (n + 1) hp')
      | error e => exact ih (n + 1) hp'

/-- C8: with a positive batch size, a missing input folder exits 1, a
folder with no eligible JSON files exits 1, and otherwise the run exits
0 exactly when some batch's pipeline succeeds — a failing batch aborts
only itself, and every successful batch's CSV reaches the combined
result regardless of the other batches' failures. -/
theorem exit_code_spec (B : Nat) (entries : List String)
    (runBatch : Nat → List String → Except String φ) (hB : 0 < B) :
    mainExit (B : Int) runBatch none = 1 ∧
    (get_json_files entries = [] →
      mainExit (B : Int) runBatch (some entries) = 1) ∧
    (get_json_files entries ≠ [] →
      (mainExit (B : Int) runBatch (some entries) = 0 ↔
        ∃ p ∈ List.enumFrom 1 (chunkPos B (get_json_files entries)),
          ∃ v, runBatch p.1 p.2 = .ok v)) ∧
    (∀ p ∈ List.enumFrom 1 (chunkPos B (get_json_files entries)),
      ∀ v, runBatch p.1 p.2 = .ok v →
        ∃ res, process_promo_folder (B : Int) runBatch (some entries) =
          some res ∧ v ∈ res) := by
  have hok : create_batches (B : Int) (get_json_files entries) =
      .ok (chunkPos B (get_json_files entries)) := by
    have h0 : (B : Int) ≠ 0 := by exact_mod_cast hB.ne'
    have h1 : ¬ (B : Int) < 0 := by omega
    simp [create_batches, h0, h1]
  refine ⟨rfl, ?_, ?_, ?_⟩
  · intro h
    simp [mainExit, process_promo_folder, h]
  · intro hne
    rw [mainExit]
    simp only [process_promo_folder, List.isEmpty_iff, hne, if_false, hok]
    rcases hnil : runBatches runBatch 1 (chunkPos B (get_json_files entries))
      with _ | ⟨c, cs⟩
    · rw [runBatches_eq_nil_iff] at hnil
      simp only [List.isEmpty_nil, if_true]
      constructor
      · intro h
        exact absurd h (by simp)
      · intro ⟨p, hp, v, hv⟩
        exact absurd hv (hnil p hp v)
    · simp only [List.isEmpty_cons, if_false]
      constructor
      · intro _
        have : runBatches runBatch 1 (chunkPos B (get_json_files entries)) ≠
            [] := by simp [hnil]
        rw [Ne, runBatches_eq_nil_iff] at this
        push_neg at this
        obtain ⟨p, hp, v, hv⟩ := this
        exact ⟨p, hp, v, hv⟩
      · intro _
        rfl
  · intro p hp v hv
    have hmem : v ∈ runBatches runBatch 1 (chunkPos B (get_json_files entries)) :=
      runBatches_mem runBatch 1 _ p hp v hv
    have hne : get_json_files entries ≠ [] := by
      intro h
      rw [h] at hp
      simp [chunkPos, List.enumFrom] at hp
    refine ⟨runBatches runBatch 1 (chunkPos B (get_json_files entries)), ?_, hmem⟩
    simp only [process_promo_folder, List.isEmpty_iff, hne, if_false, hok]
    have : ¬ (runBatches runBatch 1 (chunkPos B (get_json_files entries))).isEmpty
        = true := by
      rw [List.isEmpty_iff]
      intro h
      rw [h] at hmem
      simp at hmem
    simp [this]

/-- A concrete per-batch pipeline for the C8 witness: batch 1 fails,
batch 2 succeeds and downloads `batch_002.csv`. -/
def wRunBatch : Nat → List String → Except String String :=
  fun n _ => if n = 2 then .ok "batch_002.csv" else .error "batch failed"

unseal List.merge List.mergeSort in
/-- Witness for C8: three files, batch size 2 → batches `1` and `2`;
batch 1 fails, batch 2 succeeds, so the run still exits 0 and the
combined result carries batch 2's CSV; a missing folder and a folder
without eligible files exit 1. -/
theorem exit_code_spec_witness :
    mainExit (2 : Int) wRunBatch none = 1 ∧
    mainExit (2 : Int) wRunBatch (some ["readme.txt"]) = 1 ∧
    mainExit (2 : Int) wRunBatch (some ["a.json", "b.json", "c.json"]) = 0 ∧
    ∃ res, process_promo_folder (2 : Int) wRunBatch
        (some ["a.json", "b.json", "c.json"]) = some res ∧
      "batch_002.csv" ∈ res := by
  have h := exit_code_spec 2 ["a.json", "b.json", "c.json"] wRunBatch (by decide)
  have hfiles : get_json_files ["a.json", "b.json", "c.json"] =
      ["a.json", "b.json", "c.json"] := by decide
  have hchunk : chunkPos 2 ["a.json", "b.json", "c.json"] =
      [["a.json", "b.json"], ["c.json"]] := by simp [chunkPos]
  have hp : ((2 : Nat), ["c.json"]) ∈ List.enumFrom 1
      (chunkPos 2 (get_json_files ["a.json", "b.json", "c.json"])) := by
    rw [hfiles, hchunk]
    decide
  refine ⟨h.1, ?_, ?_, ?_⟩
  · exact (exit_code_spec 2 ["readme.txt"] wRunBatch (by decide)).2.1 (by decide)
  · exact (h.2.2.1 (by simp [hfiles])).mpr
      ⟨(2, ["c.json"]), hp, "batch_002.csv", rfl⟩
  · exact h.2.2.2 (2, ["c.json"]) hp "batch_002.csv" rfl

end Ren3
